import Mathlib

/-!
# Verification of the gVisor VFS1 path-resolution and file-operation layer

Shallow embedding of `pkg/sentry/syscalls/linux/sys_file.go` (the
path-resolution and operation-dispatch engine): `fileOpOn`, `fileOpAt`,
`openAt`, `createAt`, `accessAt`, `chown`, `Truncate` and `Fallocate`,
together with theorems about reference-count discipline, error ordering,
symlink-budget termination and overflow handling.

External collaborators that live outside the embedded file (the mount
namespace's `FindLink`/`FindInode` lookup, `fs.SplitLast`, the permission
and credential subsystem, the inode backends) are modelled at their
interface, as the specification prescribes; definitions carrying a
`Modelled from the spec:` doc comment are reconstructed from the
specification's words because their source is not part of the embedded
file set.
-/

namespace GVisor

/-- Error numbers used by the embedded operations (`linuxerr` values). -/
inductive Errno
  | EBADF
  | ENOTDIR
  | ENOENT
  | EEXIST
  | ELOOP
  | EISDIR
  | EACCES
  | EPERM
  | EINVAL
  | EFBIG
  | ENOTSUP
  | ESPIPE
  | ENODEV
  | EOPNOTSUPP
  | EINTR
  | EWOULDBLOCK
  | EBUSY
  deriving DecidableEq, Repr

/-- The stable-attribute file kind of an inode (`fs.StableAttr` type tags:
`fs.IsDir`, `fs.IsSymlink`, `fs.IsRegular`, `fs.IsPipe`, ...). A node has
exactly one kind, so the type-tag predicates are mutually exclusive. -/
inductive NodeKind
  | dir
  | regular
  | symlink (target : String)
  | fifo
  | other
  deriving DecidableEq, Repr

/-- `fs.IsDir` on a node kind. -/
def NodeKind.isDir : NodeKind → Bool
  | .dir => true
  | _ => false

/-- `fs.IsSymlink` on a node kind. -/
def NodeKind.isSymlink : NodeKind → Bool
  | .symlink _ => true
  | _ => false

/-- `fs.IsRegular` on a node kind. -/
def NodeKind.isRegular : NodeKind → Bool
  | .regular => true
  | _ => false

/-- `fs.IsPipe` on a node kind. -/
def NodeKind.isPipe : NodeKind → Bool
  | .fifo => true
  | _ => false

/-! ## Reference-count ledger

Dirents and files are reference-counted (`IncRef`/`DecRef`).  We model the
population of handles as natural numbers and track, per handle, the number
of outstanding references.  `decRef` fails (returns `none`) when the handle
has no outstanding reference, capturing a double release. -/

/-- Outstanding reference count per handle. -/
def Ledger : Type := Nat → Nat

/-- Acquiring one reference on handle `h` (`IncRef`, or a lookup / accessor
returning an already-referenced handle). -/
def incRef (L : Ledger) (h : Nat) : Ledger :=
  fun x => if x = h then L x + 1 else L x

/-- Releasing one reference on handle `h` (`DecRef`).  Returns `none` when
no reference is outstanding: a double release. -/
def decRef (L : Ledger) (h : Nat) : Option Ledger :=
  if L h = 0 then none
  else some (fun x => if x = h then L x - 1 else L x)

theorem incRef_apply (L : Ledger) (h x : Nat) :
    incRef L h x = if x = h then L x + 1 else L x := rfl

theorem decRef_incRef (L : Ledger) (h : Nat) :
    decRef (incRef L h) h = some L := by
  unfold decRef incRef
  simp only [if_pos rfl]
  rw [if_neg (by simp)]
  congr 1
  funext x
  by_cases hx : x = h <;> simp [hx]

/-! ## The directory-relative resolver `fileOpOn`

`fileOpOn(t, dirFD, path, resolve, fn)` extracts an anchor (nothing for an
absolute path, the working directory for `AT_FDCWD`, otherwise the file of
`dirFD`), grabs the root, resolves the path in the mount namespace, releases
its own references, and runs `fn(root, d, remainingTraversals)` before
releasing `d`. -/

/-- The file obtained from the descriptor table for `dirFD`
(`t.GetFile(dirFD)`): the `fs.File` handle itself plus its `Dirent` and
whether that dirent is a directory. -/
structure FileDesc where
  fileHandle : Nat
  dirent : Nat
  direntIsDir : Bool
  deriving DecidableEq, Repr

/-- The call-scoped environment of one `fileOpOn` invocation: the shape of
the path, the anchor information held by the task, and the behaviour of the
external mount-namespace lookup and of the caller's closure. -/
structure FileOpWorld where
  /-- `len(path) > 0 && path[0] == '/'`. -/
  pathAbs : Bool
  /-- `dirFD == linux.AT_FDCWD`. -/
  dirFDisCWD : Bool
  /-- Handle of `t.FSContext().WorkingDirectory()` (returned referenced). -/
  wd : Nat
  /-- Handle of `t.FSContext().RootDirectory()` (returned referenced). -/
  root : Nat
  /-- `t.GetFile(dirFD)`: `none` models a `nil` return. -/
  getFile : Option FileDesc
  /-- The mount namespace's `FindInode`/`FindLink`, as a function of the
  relative anchor dirent it is given (`none` = `nil` for absolute paths).
  On success it returns a dirent handle carrying a fresh reference, plus the
  remaining traversal budget. -/
  find : Option Nat → Except Errno (Nat × Nat)
  /-- Result of the caller's closure `fn`. -/
  fnResult : Except Errno Unit

/-- Observable outcome of one `fileOpOn` call: the returned error, the final
ledger (`none` if some `DecRef` underflowed), which anchor the lookup was
invoked with (if it was), which `(root, d)` pair the closure ran on (if it
ran), and the ledger state while the closure was running. -/
structure FileOpOut where
  result : Except Errno Unit
  ledger : Option Ledger
  findCall : Option (Option Nat)
  fnCall : Option (Nat × Nat)
  fnLedger : Option Ledger

/-- `IncRef` lifted to the optional ledger. -/
def oInc (L : Option Ledger) (h : Nat) : Option Ledger :=
  L.map (fun l => incRef l h)

/-- `DecRef` lifted to the optional ledger; an underflow poisons it. -/
def oDec (L : Option Ledger) (h : Nat) : Option Ledger :=
  L.bind (fun l => decRef l h)

/-- A conditional `DecRef` (`if wd != nil { wd.DecRef(t) }` and the like). -/
def oDecOpt (L : Option Ledger) (h : Option Nat) : Option Ledger :=
  match h with
  | none => L
  | some h => oDec L h

/-- Shallow embedding of `fileOpOn`.  Mirrors the source control flow:
anchor extraction (absolute path / `AT_FDCWD` / explicit descriptor, with
`EBADF` and `ENOTDIR` failures), root acquisition, mount-namespace lookup,
release of root / working directory / descriptor file, lookup-error
propagation, closure invocation on `(root, d)`, and release of `d`.
Reference counts never influence the code's control flow, so the ledger is
threaded separately from the results. -/
def fileOpOn (w : FileOpWorld) (L0 : Ledger) : FileOpOut :=
  -- Extract the working directory (maybe).
  if w.pathAbs then
    -- Absolute path; rel is nil, nothing acquired.
    fileOpOnFinish w (some L0) none none none
  else if w.dirFDisCWD then
    -- wd = t.FSContext().WorkingDirectory(); rel = wd.
    fileOpOnFinish w (oInc (some L0) w.wd) (some w.wd) (some w.wd) none
  else
    match w.getFile with
    | none =>
      -- f == nil: return EBADF.
      ⟨.error .EBADF, some L0, none, none, none⟩
    | some f =>
      if !f.direntIsDir then
        -- f.DecRef(t); return ENOTDIR.
        ⟨.error .ENOTDIR, oDec (oInc (some L0) f.fileHandle) f.fileHandle,
          none, none, none⟩
      else
        fileOpOnFinish w (oInc (some L0) f.fileHandle)
          (some f.dirent) none (some f.fileHandle)
where
  /-- Tail of `fileOpOn` after anchor extraction: `rel` is the relative
  anchor dirent handed to the lookup, `wdHeld`/`fHeld` the references the
  resolver itself holds on the working directory / the descriptor's file. -/
  fileOpOnFinish (w : FileOpWorld) (L : Option Ledger)
      (rel : Option Nat) (wdHeld : Option Nat) (fHeld : Option Nat) :
      FileOpOut :=
    -- Grab the root (always required).
    let L1 := oInc L w.root
    match w.find rel with
    | .error e =>
      -- root.DecRef; wd.DecRef if held; f.DecRef if held; return err.
      ⟨.error e, oDecOpt (oDecOpt (oDec L1 w.root) wdHeld) fHeld,
        some rel, none, none⟩
    | .ok (d, _) =>
      -- The lookup returned d carrying a fresh reference.
      let L2 := oDecOpt (oDecOpt (oDec (oInc L1 d) w.root) wdHeld) fHeld
      -- err = fn(root, d, remainingTraversals); d.DecRef(t); return err.
      ⟨w.fnResult, oDec L2 d, some rel, some (w.root, d), L2⟩

/-- `linux.MaxSymlinkTraversals`: the fixed maximum symlink-traversal
budget. -/
def maxSymlinkTraversals : Nat := 40

/-- Shallow embedding of `fileOpAt`, which operates on the second-to-last
component: `dir` is the directory part of `fs.SplitLast(path)`.  The two
fast paths (`dir == "/"`, and `dir == "."` with `dirFD == AT_FDCWD`) run
the closure directly on the root / working directory with the full budget;
otherwise the call delegates to `fileOpOn` on the parent path (whose shape
the world's fields then describe). -/
def fileOpAt (w : FileOpWorld) (dir : String) (L0 : Ledger) : FileOpOut :=
  if dir = "/" then
    -- root := RootDirectory(); err := fn(root, root, name, Max); root.DecRef.
    let L1 := oInc (some L0) w.root
    ⟨w.fnResult, oDec L1 w.root, none, some (w.root, w.root), L1⟩
  else if dir = "." ∧ w.dirFDisCWD then
    -- wd := WorkingDirectory(); root := RootDirectory();
    -- err := fn(root, wd, name, Max); wd.DecRef; root.DecRef.
    let L1 := oInc (oInc (some L0) w.wd) w.root
    ⟨w.fnResult, oDec (oDec L1 w.wd) w.root, none, some (w.root, w.wd), L1⟩
  else
    fileOpOn w L0

/-! ### Ledger algebra -/

theorem oInc_comm (L : Option Ledger) (a b : Nat) :
    oInc (oInc L a) b = oInc (oInc L b) a := by
  cases L with
  | none => rfl
  | some l =>
    show some _ = some _
    congr 1
    funext x
    unfold incRef
    by_cases hxa : x = a <;> by_cases hxb : x = b <;>
      simp [hxa, hxb] <;> split <;> omega

theorem oDec_oInc (L : Option Ledger) (h : Nat) :
    oDec (oInc L h) h = L := by
  cases L with
  | none => rfl
  | some l =>
    show decRef (incRef l h) h = some l
    exact decRef_incRef l h

theorem oDec_oInc_oInc (L : Option Ledger) (a b : Nat) :
    oDec (oInc (oInc L a) b) a = oInc L b := by
  rw [oInc_comm, oDec_oInc]

theorem incRef_pos (L : Ledger) (h : Nat) : 0 < incRef L h h := by
  unfold incRef
  simp

theorem incRef_le (L : Ledger) (h x : Nat) : L x ≤ incRef L h x := by
  unfold incRef
  by_cases hx : x = h <;> simp [hx]

/-! ### Reference-count discipline of the resolvers -/

/-- A resolver call is reference-balanced over `L0`: every reference it
acquired was released exactly once (the ledger returns to `L0` with no
`DecRef` underflow), and any `(root, d)` pair handed to the closure had
strictly positive reference counts while the closure ran. -/
def balancedWithFn (out : FileOpOut) (L0 : Ledger) : Prop :=
  out.ledger = some L0 ∧
  ∀ r d, out.fnCall = some (r, d) →
    ∃ Lf, out.fnLedger = some Lf ∧ 0 < Lf d ∧ 0 < Lf r

theorem fileOpOnFinish_balanced_none (w : FileOpWorld) (L0 : Ledger)
    (rel : Option Nat) (hroot : 1 ≤ L0 w.root) :
    balancedWithFn (fileOpOn.fileOpOnFinish w (some L0) rel none none) L0 := by
  unfold fileOpOn.fileOpOnFinish
  cases hf : w.find rel with
  | error e =>
    constructor
    · simp [oDecOpt, oDec_oInc]
    · intro r d h
      simp at h
  | ok p =>
    obtain ⟨d, b⟩ := p
    constructor
    · simp only [oDecOpt, oDec_oInc_oInc, oDec_oInc]
    · intro r d' h
      simp only [Option.some.injEq, Prod.mk.injEq] at h
      obtain ⟨hr, hd⟩ := h
      subst hr hd
      refine ⟨incRef L0 d, ?_, incRef_pos L0 d, ?_⟩
      · simp only [oDecOpt, oDec_oInc_oInc]
        rfl
      · exact lt_of_lt_of_le hroot (incRef_le L0 d w.root)

theorem fileOpOnFinish_balanced_wd (w : FileOpWorld) (L0 : Ledger)
    (rel : Option Nat) (a : Nat) (hroot : 1 ≤ L0 w.root) :
    balancedWithFn
      (fileOpOn.fileOpOnFinish w (oInc (some L0) a) rel (some a) none) L0 := by
  unfold fileOpOn.fileOpOnFinish
  cases hf : w.find rel with
  | error e =>
    constructor
    · simp only [oDecOpt, oDec_oInc, oDec_oInc_oInc]
    · intro r d h
      simp at h
  | ok p =>
    obtain ⟨d, b⟩ := p
    have hmid :
        oDecOpt (oDecOpt (oDec (oInc (oInc (oInc (some L0) a) w.root) d)
          w.root) (some a)) none = oInc (some L0) d := by
      simp only [oDecOpt, oDec_oInc_oInc]
    constructor
    · simp only [oDecOpt] at hmid ⊢
      rw [hmid, oDec_oInc]
    · intro r d' h
      simp only [Option.some.injEq, Prod.mk.injEq] at h
      obtain ⟨hr, hd⟩ := h
      subst hr hd
      refine ⟨incRef L0 d, ?_, incRef_pos L0 d, ?_⟩
      · simp only [oDecOpt] at hmid ⊢
        rw [hmid]
        rfl
      · exact lt_of_lt_of_le hroot (incRef_le L0 d w.root)

theorem fileOpOnFinish_balanced_fd (w : FileOpWorld) (L0 : Ledger)
    (rel : Option Nat) (a : Nat) (hroot : 1 ≤ L0 w.root) :
    balancedWithFn
      (fileOpOn.fileOpOnFinish w (oInc (some L0) a) rel none (some a)) L0 := by
  unfold fileOpOn.fileOpOnFinish
  cases hf : w.find rel with
  | error e =>
    constructor
    · simp only [oDecOpt, oDec_oInc, oDec_oInc_oInc]
    · intro r d h
      simp at h
  | ok p =>
    obtain ⟨d, b⟩ := p
    have hmid :
        oDecOpt (oDecOpt (oDec (oInc (oInc (oInc (some L0) a) w.root) d)
          w.root) none) (some a) = oInc (some L0) d := by
      simp only [oDecOpt, oDec_oInc_oInc]
    constructor
    · simp only [oDecOpt] at hmid ⊢
      rw [hmid, oDec_oInc]
    · intro r d' h
      simp only [Option.some.injEq, Prod.mk.injEq] at h
      obtain ⟨hr, hd⟩ := h
      subst hr hd
      refine ⟨incRef L0 d, ?_, incRef_pos L0 d, ?_⟩
      · simp only [oDecOpt] at hmid ⊢
        rw [hmid]
        rfl
      · exact lt_of_lt_of_le hroot (incRef_le L0 d w.root)

theorem fileOpOn_balanced (w : FileOpWorld) (L0 : Ledger)
    (hroot : 1 ≤ L0 w.root) : balancedWithFn (fileOpOn w L0) L0 := by
  cases hA : w.pathAbs with
  | true =>
    have h := fileOpOnFinish_balanced_none w L0 none hroot
    simpa [fileOpOn, hA] using h
  | false =>
    cases hC : w.dirFDisCWD with
    | true =>
      have h := fileOpOnFinish_balanced_wd w L0 (some w.wd) w.wd hroot
      simpa [fileOpOn, hA, hC] using h
    | false =>
      cases hG : w.getFile with
      | none =>
        refine ⟨?_, ?_⟩
        · simp [fileOpOn, hA, hC, hG]
        · intro r d h
          simp [fileOpOn, hA, hC, hG] at h
      | some f =>
        cases hD : f.direntIsDir with
        | false =>
          refine ⟨?_, ?_⟩
          · simp [fileOpOn, hA, hC, hG, hD, oDec_oInc]
          · intro r d h
            simp [fileOpOn, hA, hC, hG, hD] at h
        | true =>
          have h := fileOpOnFinish_balanced_fd w L0 (some f.dirent)
            f.fileHandle hroot
          simpa [fileOpOn, hA, hC, hG, hD] using h

theorem fileOpAt_balanced (w : FileOpWorld) (dir : String) (L0 : Ledger)
    (hroot : 1 ≤ L0 w.root) : balancedWithFn (fileOpAt w dir L0) L0 := by
  unfold fileOpAt
  by_cases h1 : dir = "/"
  · rw [if_pos h1]
    refine ⟨?_, ?_⟩
    · show oDec (oInc (some L0) w.root) w.root = some L0
      rw [oDec_oInc]
    · intro r d h
      simp only [Option.some.injEq, Prod.mk.injEq] at h
      obtain ⟨hr, hd⟩ := h
      subst hr hd
      exact ⟨incRef L0 w.root, rfl, incRef_pos _ _, incRef_pos _ _⟩
  · rw [if_neg h1]
    by_cases h2 : dir = "." ∧ w.dirFDisCWD
    · rw [if_pos h2]
      refine ⟨?_, ?_⟩
      · show oDec (oDec (oInc (oInc (some L0) w.wd) w.root) w.wd) w.root
          = some L0
        rw [oDec_oInc_oInc, oDec_oInc]
      · intro r d h
        simp only [Option.some.injEq, Prod.mk.injEq] at h
        obtain ⟨hr, hd⟩ := h
        subst hr hd
        refine ⟨incRef (incRef L0 w.wd) w.root, rfl, ?_, incRef_pos _ _⟩
        exact lt_of_lt_of_le (incRef_pos L0 w.wd)
          (incRef_le (incRef L0 w.wd) w.root w.wd)
    · rw [if_neg h2]
      exact fileOpOn_balanced w L0 hroot

/-- C2: for every call to the directory-relative resolver `fileOpOn` (and
to `fileOpAt`, which either runs its fast paths or delegates to it), each
reference it acquires — the working directory, the anchor descriptor's
file, the root directory, and the resolved dirent — is released exactly
once on every exit path, success or error (the ledger suffers no `DecRef`
underflow and returns to its initial state), and every dirent passed to
the operation closure has a strictly positive reference count for the
whole duration of the closure's execution (given that the task's file
system context holds its own reference on the root). -/
theorem fileOp_reference_discipline (w : FileOpWorld) (dir : String)
    (L0 : Ledger) (hroot : 1 ≤ L0 w.root) :
    balancedWithFn (fileOpOn w L0) L0 ∧
      balancedWithFn (fileOpAt w dir L0) L0 :=
  ⟨fileOpOn_balanced w L0 hroot, fileOpAt_balanced w dir L0 hroot⟩

/-- A concrete world: relative path resolved via an explicit directory
descriptor, with a successful lookup. -/
def exampleWorld : FileOpWorld where
  pathAbs := false
  dirFDisCWD := false
  wd := 1
  root := 0
  getFile := some ⟨5, 2, true⟩
  find := fun _ => .ok (3, 39)
  fnResult := .ok ()

/-- A unit baseline ledger: every handle has one outstanding reference. -/
def exampleLedger : Ledger := fun _ => 1

theorem fileOp_reference_discipline_witness :
    1 ≤ exampleLedger exampleWorld.root ∧
      (balancedWithFn (fileOpOn exampleWorld exampleLedger) exampleLedger ∧
        balancedWithFn (fileOpAt exampleWorld "a" exampleLedger)
          exampleLedger) :=
  ⟨Nat.le_refl 1,
    fileOp_reference_discipline exampleWorld "a" exampleLedger
      (Nat.le_refl 1)⟩

/-- `fileOpOn.fileOpOnFinish` only looks at the `find`, `root` and
`fnResult` fields of the world. -/
theorem fileOpOnFinish_congr (w w' : FileOpWorld) (h1 : w'.find = w.find)
    (h2 : w'.root = w.root) (h3 : w'.fnResult = w.fnResult)
    (L : Option Ledger) (rel wh fh : Option Nat) :
    fileOpOn.fileOpOnFinish w' L rel wh fh
      = fileOpOn.fileOpOnFinish w L rel wh fh := by
  unfold fileOpOn.fileOpOnFinish
  rw [h1, h2, h3]

/-- C6: for a relative path with an explicit anchor descriptor, a closed
descriptor fails `EBADF` and a non-directory descriptor fails `ENOTDIR`;
for an absolute path the anchor descriptor is ignored entirely (the result
does not depend on the descriptor table or on the `AT_FDCWD` flag) and the
mount-namespace lookup is invoked with no relative anchor, i.e. resolution
starts at the task's root directory. -/
theorem fileOpOn_anchor_checks (w : FileOpWorld) (L0 : Ledger) :
    (w.pathAbs = false → w.dirFDisCWD = false → w.getFile = none →
      (fileOpOn w L0).result = .error .EBADF) ∧
    (∀ f, w.pathAbs = false → w.dirFDisCWD = false → w.getFile = some f →
      f.direntIsDir = false →
      (fileOpOn w L0).result = .error .ENOTDIR) ∧
    (w.pathAbs = true →
      (fileOpOn w L0).findCall = some none ∧
      ∀ g c, fileOpOn { w with getFile := g, dirFDisCWD := c } L0
        = fileOpOn w L0) := by
  refine ⟨?_, ?_, ?_⟩
  · intro hA hC hG
    simp [fileOpOn, hA, hC, hG]
  · intro f hA hC hG hD
    simp [fileOpOn, hA, hC, hG, hD]
  · intro hA
    constructor
    · simp only [fileOpOn, hA]
      unfold fileOpOn.fileOpOnFinish
      cases hf : w.find none with
      | error e => simp [hf]
      | ok p => simp [hf]
    · intro g c
      have e1 : fileOpOn { w with getFile := g, dirFDisCWD := c } L0
          = fileOpOn.fileOpOnFinish { w with getFile := g, dirFDisCWD := c }
            (some L0) none none none := by
        simp [fileOpOn, hA]
      have e2 : fileOpOn w L0
          = fileOpOn.fileOpOnFinish w (some L0) none none none := by
        simp [fileOpOn, hA]
      rw [e1, e2]
      exact fileOpOnFinish_congr w _ rfl rfl rfl (some L0) none none none

/-- A world with an absolute path, used to witness the anchor-ignoring
conjunct of the anchor-check theorem. -/
def exampleWorldAbs : FileOpWorld :=
  { exampleWorld with pathAbs := true }

/-- A world with a relative path and a closed anchor descriptor. -/
def exampleWorldBadFD : FileOpWorld :=
  { exampleWorld with getFile := none }

/-- A world with a relative path and a non-directory anchor descriptor. -/
def exampleWorldNotDir : FileOpWorld :=
  { exampleWorld with getFile := some ⟨5, 2, false⟩ }

theorem fileOpOn_anchor_checks_witness :
    (fileOpOn exampleWorldBadFD exampleLedger).result = .error .EBADF ∧
    (fileOpOn exampleWorldNotDir exampleLedger).result = .error .ENOTDIR ∧
    (fileOpOn exampleWorldAbs exampleLedger).findCall = some none :=
  ⟨(fileOpOn_anchor_checks exampleWorldBadFD exampleLedger).1 rfl rfl rfl,
    (fileOpOn_anchor_checks exampleWorldNotDir exampleLedger).2.1
      ⟨5, 2, false⟩ rfl rfl rfl rfl,
    ((fileOpOn_anchor_checks exampleWorldAbs exampleLedger).2.2 rfl).1⟩

/-! ## The `openAt` operation

Open-flag bit constants (`pkg/abi/linux`, x86-64 values). -/

def O_ACCMODE : Nat := 3
def O_RDONLY : Nat := 0
def O_WRONLY : Nat := 1
def O_RDWR : Nat := 2
def O_CREAT : Nat := 64
def O_EXCL : Nat := 128
def O_TRUNC : Nat := 512
def O_DIRECTORY : Nat := 65536
def O_NOFOLLOW : Nat := 131072

/-- The `fs.FileFlags` fields consulted by the embedded operations. -/
structure FileFlags where
  read : Bool
  write : Bool
  directory : Bool
  largeFile : Bool
  deriving DecidableEq, Repr

/-- Modelled from the spec: the helper `linuxToFlags` is not among the
embedded sources.  Per the specification, write access is requested by any
access mode other than read-only, and `O_DIRECTORY` demands a directory. -/
def linuxToFlags (mask : Nat) : FileFlags where
  read := (mask &&& O_ACCMODE) != O_WRONLY
  write := (mask &&& O_ACCMODE) != O_RDONLY
  directory := (mask &&& O_DIRECTORY) != 0
  largeFile := false

/-- The behaviour of the external collaborators consulted by the closure
body of `openAt` once the path has resolved to a dirent `d`: the kind of
`d.Inode`, the outcomes of `CheckPermission(flagsToPermissions(flags))`,
`Inode.GetFile`, `Inode.Truncate` and `NewFDFrom`. -/
structure OpenWorld where
  kind : NodeKind
  checkPerm : Except Errno Unit
  getFileRes : Except Errno Nat
  truncateRes : Except Errno Unit
  newFDRes : Except Errno Nat
  deriving Repr

/-- Shallow embedding of the closure body of `openAt` (the function passed
to `fileOpOn`): permission check first, then the `O_NOFOLLOW` symlink
check, then the type checks (`EISDIR` for a writable directory open,
`ENOTDIR` for `O_DIRECTORY` or a trailing slash on a non-directory), then
`GetFile`, `O_TRUNC` truncation and descriptor installation.  `dirPath` is
the trailing-slash flag produced by `copyInPath`. -/
def openAtBody (w : OpenWorld) (flags : Nat) (dirPath : Bool) :
    Except Errno Nat :=
  let resolve := (flags &&& O_NOFOLLOW) == 0
  match w.checkPerm with
  | .error e => .error e
  | .ok _ =>
    if w.kind.isSymlink && !resolve then .error .ELOOP
    else
      let fileFlags := { linuxToFlags flags with largeFile := true }
      if w.kind.isDir then
        -- Don't allow directories to be opened writable.
        if fileFlags.write then .error .EISDIR
        else openAtInstall w flags
      else
        -- If O_DIRECTORY is set, but the file is not a directory, fail.
        if fileFlags.directory then .error .ENOTDIR
        else if dirPath then .error .ENOTDIR
        else openAtInstall w flags
where
  /-- Tail of the closure: `GetFile`, `O_TRUNC` truncation, `NewFDFrom`. -/
  openAtInstall (w : OpenWorld) (flags : Nat) : Except Errno Nat :=
    match w.getFileRes with
    | .error e => .error e
    | .ok _ =>
      if (flags &&& O_TRUNC) != 0 then
        match w.truncateRes with
        | .error e => .error e
        | .ok _ => w.newFDRes
      else w.newFDRes

/-- A resolved directory whose permission check denies the requested
access. -/
def openDeniedDir : OpenWorld where
  kind := .dir
  checkPerm := .error .EACCES
  getFileRes := .ok 7
  truncateRes := .ok ()
  newFDRes := .ok 3

/-- C1 counterexample: a write-mode open (`O_WRONLY`, mask 1) of a path
resolving to a directory whose permission check fails returns the
permission error, not `EISDIR` — the permission check, not the type check,
comes first in `openAt`. -/
theorem openAt_dir_write_perm_first :
    openDeniedDir.kind = .dir ∧
    (linuxToFlags O_WRONLY).write = true ∧
    openAtBody openDeniedDir O_WRONLY false = .error .EACCES ∧
    openAtBody openDeniedDir O_WRONLY false ≠ .error .EISDIR :=
  ⟨rfl, rfl, rfl, fun h => Errno.noConfusion (Except.error.inj h)⟩

/-- C1 (amended): in `openAt` the permission check precedes the type
check.  When the permission check on the resolved directory succeeds, an
open request with write access fails `EISDIR`; when the permission check
fails, its error is returned instead, even though `EISDIR` would also have
applied. -/
theorem openAt_dir_write_EISDIR (w : OpenWorld) (flags : Nat)
    (dirPath : Bool) (hdir : w.kind = .dir)
    (hw : (linuxToFlags flags).write = true) :
    (w.checkPerm = .ok () → openAtBody w flags dirPath = .error .EISDIR) ∧
    (∀ e, w.checkPerm = .error e → openAtBody w flags dirPath = .error e) := by
  constructor
  · intro hp
    simp [openAtBody, hp, hdir, NodeKind.isSymlink, NodeKind.isDir, hw]
  · intro e hp
    simp [openAtBody, hp]

/-- A resolved directory whose permission check passes. -/
def openGrantedDir : OpenWorld where
  kind := .dir
  checkPerm := .ok ()
  getFileRes := .ok 7
  truncateRes := .ok ()
  newFDRes := .ok 3

theorem openAt_dir_write_EISDIR_witness :
    openGrantedDir.kind = .dir ∧
    (linuxToFlags O_WRONLY).write = true ∧
    openAtBody openGrantedDir O_WRONLY false = .error .EISDIR ∧
    openAtBody openDeniedDir O_WRONLY false = .error .EACCES :=
  ⟨rfl, rfl,
    (openAt_dir_write_EISDIR openGrantedDir O_WRONLY false rfl rfl).1 rfl,
    (openAt_dir_write_EISDIR openDeniedDir O_WRONLY false rfl rfl).2
      .EACCES rfl⟩

/-! ## The `accessAt` operation and its derived credentials -/

/-- A read/write/execute permission request (`fs.PermMask`). -/
structure PermMask where
  read : Bool
  write : Bool
  execute : Bool
  deriving DecidableEq, Repr

/-- The credentials snapshot consulted by `accessAt`
(`auth.Credentials`).  `uidInNS` is `KUID.In(UserNamespace)`, mapping a
kernel uid into the task's user namespace; the root uid is `0`. -/
structure Credentials where
  realUID : Nat
  realGID : Nat
  effUID : Nat
  effGID : Nat
  permittedCaps : Nat
  effectiveCaps : Nat
  uidInNS : Nat → Nat

/-- The derived credentials view built by the `accessAt` closure: fork the
task's credentials, force effective uid/gid to the real uid/gid, and
recompute the effective capabilities (full permitted set if the — now
real — effective uid is root in the user namespace, empty otherwise). -/
def accessCredentials (c : Credentials) : Credentials :=
  let c1 := { c with effUID := c.realUID, effGID := c.realGID }
  if c1.uidInNS c1.effUID = 0 then
    { c1 with effectiveCaps := c1.permittedCaps }
  else
    { c1 with effectiveCaps := 0 }

/-- The task state visible to `accessAt`: just its credentials. -/
structure TaskC where
  creds : Credentials

/-- The external permission check (`Inode.CheckPermission`), parameterised
by the credentials carried by the context it is handed. -/
structure AccessWorld where
  checkPermission : Credentials → PermMask → Except Errno Unit

/-- Shallow embedding of the closure body of `accessAt`: build the derived
credentials, wrap them in an `accessContext`, and evaluate
`CheckPermission` with the requested mode bits (`rOK`/`wOK`/`xOK`).  The
task is returned unchanged — the fork is never written back. -/
def accessAtCheck (w : AccessWorld) (t : TaskC) (mode : Nat) :
    Except Errno Unit × TaskC :=
  let creds := accessCredentials t.creds
  (w.checkPermission creds
    ⟨(mode &&& 4) != 0, (mode &&& 2) != 0, (mode &&& 1) != 0⟩, t)

/-- C9: the `accessAt` permission check is evaluated against a derived
credentials view whose effective uid/gid are the real uid/gid and whose
effective capabilities are the full permitted set exactly when the real
uid is root in the user namespace (empty otherwise); the real ids are
untouched, and the task's own credentials are unchanged by the call. -/
theorem accessAt_derived_credentials (w : AccessWorld) (t : TaskC)
    (mode : Nat) :
    (accessCredentials t.creds).effUID = t.creds.realUID ∧
    (accessCredentials t.creds).effGID = t.creds.realGID ∧
    (accessCredentials t.creds).effectiveCaps =
      (if t.creds.uidInNS t.creds.realUID = 0 then t.creds.permittedCaps
        else 0) ∧
    (accessCredentials t.creds).realUID = t.creds.realUID ∧
    (accessCredentials t.creds).realGID = t.creds.realGID ∧
    (accessCredentials t.creds).permittedCaps = t.creds.permittedCaps ∧
    (accessAtCheck w t mode).1 =
      w.checkPermission (accessCredentials t.creds)
        ⟨(mode &&& 4) != 0, (mode &&& 2) != 0, (mode &&& 1) != 0⟩ ∧
    (accessAtCheck w t mode).2 = t := by
  by_cases h : t.creds.uidInNS t.creds.realUID = 0 <;>
    simp [accessCredentials, accessAtCheck, h]

/-! ## The ownership policy: `chown` -/

/-- The setuid/setgid privilege bits of a file's permissions
(`fs.FilePermissions`). -/
structure FilePerms where
  setUID : Bool
  setGID : Bool
  deriving DecidableEq, Repr

/-- Modelled from the spec: `fs.FilePermissions.HasSetUIDOrGID` is not
among the embedded sources; it tests the setuid/setgid bits. -/
def FilePerms.hasSetUIDOrGID (p : FilePerms) : Bool := p.setUID || p.setGID

/-- Modelled from the spec: the permission-bit clearing helper invoked on
an actual ownership change (`DropSetUIDAndMaybeGID`) is not among the
embedded sources; the specification states that any actual uid/gid change
clears the setuid/setgid bits on non-directories. -/
def FilePerms.dropSetUIDAndGID (_p : FilePerms) : FilePerms := ⟨false, false⟩

/-- The credential facts consulted by `chown`: the caller's effective
kernel uid, whether it holds `CAP_CHOWN` over the file, the user-namespace
id mappings (`MapToKUID`/`MapToKGID`, `none` for an unmappable id), and
group membership. -/
structure ChownCreds where
  effUID : Nat
  hasChownCap : Bool
  mapToKUID : Nat → Option Nat
  mapToKGID : Nat → Option Nat
  inGroup : Nat → Bool

/-- The file attributes `chown` reads and rewrites
(`fs.UnstableAttr.Owner` and the privilege bits), plus the directory
type tag. -/
structure OwnedAttr where
  ownerUID : Nat
  ownerGID : Nat
  perms : FilePerms
  isDir : Bool

/-- Backend outcomes for the two mutations `chown` performs. -/
structure ChownWorld where
  setOwnerRes : Except Errno Unit
  setPermsOK : Bool

/-- The uid clause of `chown`: map the requested uid (`EINVAL` when
unmappable), require `CAP_CHOWN` or an owner's no-op self-chown
(`EPERM` otherwise), and flag privilege clearing when the uid actually
changes.  Returns the kernel uid and the clearing flag. -/
def chownCheckUID (c : ChownCreds) (attr : OwnedAttr) (uid : Nat) :
    Except Errno (Nat × Bool) :=
  match c.mapToKUID uid with
  | none => .error .EINVAL
  | some kuid =>
    if !(c.hasChownCap ||
        (attr.ownerUID == c.effUID && attr.ownerUID == kuid)) then
      .error .EPERM
    else
      .ok (kuid, attr.ownerUID != kuid)

/-- The gid clause of `chown`: map the requested gid, require `CAP_CHOWN`
or (owner and (no-op or membership in the new group)), and flag privilege
clearing when the gid actually changes. -/
def chownCheckGID (c : ChownCreds) (attr : OwnedAttr) (gid : Nat) :
    Except Errno (Nat × Bool) :=
  match c.mapToKGID gid with
  | none => .error .EINVAL
  | some kgid =>
    if !(c.hasChownCap ||
        (attr.ownerUID == c.effUID &&
          (attr.ownerGID == kgid || c.inGroup kgid))) then
      .error .EPERM
    else
      .ok (kgid, attr.ownerGID != kgid)

/-- The uid clause of `chown` lifted to an optional request: absent means
"unchanged" and performs no check. -/
def chownUIDStep (c : ChownCreds) (attr : OwnedAttr) :
    Option Nat → Except Errno (Option Nat × Bool)
  | none => .ok (none, false)
  | some u =>
    match chownCheckUID c attr u with
    | .error e => .error e
    | .ok (k, cp) => .ok (some k, cp)

/-- The gid clause of `chown` lifted to an optional request. -/
def chownGIDStep (c : ChownCreds) (attr : OwnedAttr) :
    Option Nat → Except Errno (Option Nat × Bool)
  | none => .ok (none, false)
  | some g =>
    match chownCheckGID c attr g with
    | .error e => .error e
    | .ok (k, cp) => .ok (some k, cp)

/-- The policy phase of `chown`: run the uid clause, then the gid clause,
yielding the new owner fields (`none` = unchanged) and the
privilege-clearing flag (true when some id actually changes). -/
def chownResolve (c : ChownCreds) (attr : OwnedAttr)
    (uid gid : Option Nat) : Except Errno (Option Nat × Option Nat × Bool) :=
  match chownUIDStep c attr uid with
  | .error e => .error e
  | .ok (newUID, cp1) =>
    match chownGIDStep c attr gid with
    | .error e => .error e
    | .ok (newGID, cp2) => .ok (newUID, newGID, cp1 || cp2)

/-- The mutation phase of `chown`: `SetOwner` with the resolved owner,
then — when an id actually changed, the privilege bits are set, and the
node is not a directory — clearing of the privilege bits via
`SetPermissions` (whose backend refusal surfaces as `EPERM`). -/
def chownApply (w : ChownWorld) (attr : OwnedAttr)
    (newUID newGID : Option Nat) (clearPrivilege : Bool) :
    Except Errno OwnedAttr :=
  match w.setOwnerRes with
  | .error e => .error e
  | .ok _ =>
    let attr1 := { attr with
      ownerUID := newUID.getD attr.ownerUID,
      ownerGID := newGID.getD attr.ownerGID }
    if clearPrivilege && attr.perms.hasSetUIDOrGID && !attr.isDir then
      if w.setPermsOK then
        .ok { attr1 with perms := attr.perms.dropSetUIDAndGID }
      else
        .error .EPERM
    else
      .ok attr1

/-- Shallow embedding of `chown`: either id may be absent ("unchanged").
Returns the resulting file attributes. -/
def chown (w : ChownWorld) (c : ChownCreds) (attr : OwnedAttr)
    (uid gid : Option Nat) : Except Errno OwnedAttr :=
  match chownResolve c attr uid gid with
  | .error e => .error e
  | .ok (newUID, newGID, clearPrivilege) =>
    chownApply w attr newUID newGID clearPrivilege

theorem chownCheckUID_ok (c : ChownCreds) (attr : OwnedAttr) (u k : Nat)
    (cp : Bool) (h : chownCheckUID c attr u = .ok (k, cp)) :
    c.mapToKUID u = some k ∧
      (c.hasChownCap = true ∨
        (attr.ownerUID = c.effUID ∧ attr.ownerUID = k)) ∧
      cp = (attr.ownerUID != k) := by
  unfold chownCheckUID at h
  split at h
  next => simp at h
  next k' hm =>
    split at h
    next => simp at h
    next hcond =>
      simp only [Except.ok.injEq, Prod.mk.injEq] at h
      obtain ⟨hk, hcp⟩ := h
      subst hk
      refine ⟨hm, ?_, hcp.symm⟩
      have hcond' : c.hasChownCap = false →
          attr.ownerUID = c.effUID ∧ attr.ownerUID = k' := by
        simpa using hcond
      cases hcap : c.hasChownCap with
      | true => exact Or.inl rfl
      | false => exact Or.inr (hcond' hcap)

theorem chownCheckGID_ok (c : ChownCreds) (attr : OwnedAttr) (g k : Nat)
    (cp : Bool) (h : chownCheckGID c attr g = .ok (k, cp)) :
    c.mapToKGID g = some k ∧ cp = (attr.ownerGID != k) := by
  unfold chownCheckGID at h
  split at h
  next => simp at h
  next k' hm =>
    split at h
    next => simp at h
    next hcond =>
      simp only [Except.ok.injEq, Prod.mk.injEq] at h
      obtain ⟨hk, hcp⟩ := h
      subst hk
      exact ⟨hm, hcp.symm⟩

theorem chownUIDStep_some_ok (c : ChownCreds) (attr : OwnedAttr) (u : Nat)
    (nu : Option Nat) (cp : Bool)
    (h : chownUIDStep c attr (some u) = .ok (nu, cp)) :
    ∃ k, chownCheckUID c attr u = .ok (k, cp) ∧ nu = some k := by
  have h' : (match chownCheckUID c attr u with
      | .error e => (.error e : Except Errno (Option Nat × Bool))
      | .ok (k, cp) => .ok (some k, cp)) = .ok (nu, cp) := h
  cases hc : chownCheckUID c attr u with
  | error e => rw [hc] at h'; simp at h'
  | ok p =>
    obtain ⟨k, cp'⟩ := p
    rw [hc] at h'
    simp only [Except.ok.injEq, Prod.mk.injEq] at h'
    obtain ⟨hnu, hcp⟩ := h'
    exact ⟨k, by rw [hcp], hnu.symm⟩

theorem chownGIDStep_some_ok (c : ChownCreds) (attr : OwnedAttr) (g : Nat)
    (ng : Option Nat) (cp : Bool)
    (h : chownGIDStep c attr (some g) = .ok (ng, cp)) :
    ∃ k, chownCheckGID c attr g = .ok (k, cp) ∧ ng = some k := by
  have h' : (match chownCheckGID c attr g with
      | .error e => (.error e : Except Errno (Option Nat × Bool))
      | .ok (k, cp) => .ok (some k, cp)) = .ok (ng, cp) := h
  cases hc : chownCheckGID c attr g with
  | error e => rw [hc] at h'; simp at h'
  | ok p =>
    obtain ⟨k, cp'⟩ := p
    rw [hc] at h'
    simp only [Except.ok.injEq, Prod.mk.injEq] at h'
    obtain ⟨hng, hcp⟩ := h'
    exact ⟨k, by rw [hcp], hng.symm⟩

theorem chownResolve_ok (c : ChownCreds) (attr : OwnedAttr)
    (uid gid : Option Nat) (nu ng : Option Nat) (cp : Bool)
    (h : chownResolve c attr uid gid = .ok (nu, ng, cp)) :
    ∃ cp1 cp2, chownUIDStep c attr uid = .ok (nu, cp1) ∧
      chownGIDStep c attr gid = .ok (ng, cp2) ∧ cp = (cp1 || cp2) := by
  unfold chownResolve at h
  split at h
  next => simp at h
  next nu' cp1 hu =>
    split at h
    next => simp at h
    next ng' cp2 hg =>
      simp only [Except.ok.injEq, Prod.mk.injEq] at h
      obtain ⟨h1, h2, h3⟩ := h
      subst h1 h2 h3
      exact ⟨cp1, cp2, hu, hg, rfl⟩

theorem chownApply_true_clears (w : ChownWorld) (attr : OwnedAttr)
    (nu ng : Option Nat) (attr' : OwnedAttr)
    (h : chownApply w attr nu ng true = .ok attr')
    (hdir : attr.isDir = false) (hbits : attr.perms.hasSetUIDOrGID = true) :
    attr'.perms = ⟨false, false⟩ := by
  unfold chownApply at h
  cases hso : w.setOwnerRes with
  | error e => rw [hso] at h; simp at h
  | ok _ =>
    rw [hso] at h
    rw [hbits, hdir] at h
    simp only [Bool.and_true, Bool.and_self, Bool.not_false, if_pos] at h
    cases hsp : w.setPermsOK with
    | false => rw [hsp] at h; simp at h
    | true =>
      rw [hsp] at h
      simp only [if_pos] at h
      have := Except.ok.inj h
      rw [← this]
      rfl

theorem chown_noop_self (w : ChownWorld) (c : ChownCreds)
    (attr : OwnedAttr) (u : Nat)
    (hmap : c.mapToKUID u = some attr.ownerUID)
    (howner : attr.ownerUID = c.effUID)
    (hso : w.setOwnerRes = .ok ()) :
    chown w c attr (some u) none = .ok attr := by
  have hb : (attr.ownerUID == c.effUID) = true := by simp [howner]
  simp [chown, chownResolve, chownUIDStep, chownGIDStep, chownCheckUID,
    chownApply, hmap, hb, hso]

/-- C7: a chown request that changes the uid succeeds only if the caller
holds the CHOWN capability, or owns the file and the requested new uid
equals the file's current uid; such a no-op self-chown succeeds without
the capability; and whenever the uid or gid actually changes on a
non-directory whose setuid/setgid bits are set, those bits are cleared. -/
theorem chown_ownership_policy (w : ChownWorld) (c : ChownCreds)
    (attr : OwnedAttr) (uid gid : Option Nat) :
    (∀ u attr', uid = some u → chown w c attr uid gid = .ok attr' →
      ∃ k, c.mapToKUID u = some k ∧
        (c.hasChownCap = true ∨
          (attr.ownerUID = c.effUID ∧ attr.ownerUID = k))) ∧
    (∀ u, uid = some u → gid = none → c.hasChownCap = false →
      c.mapToKUID u = some attr.ownerUID → attr.ownerUID = c.effUID →
      w.setOwnerRes = .ok () → chown w c attr uid gid = .ok attr) ∧
    (∀ attr', chown w c attr uid gid = .ok attr' →
      attr.isDir = false → attr.perms.hasSetUIDOrGID = true →
      ((∃ u k, uid = some u ∧ c.mapToKUID u = some k ∧
          k ≠ attr.ownerUID) ∨
        (∃ g k, gid = some g ∧ c.mapToKGID g = some k ∧
          k ≠ attr.ownerGID)) →
      attr'.perms = ⟨false, false⟩) := by
  refine ⟨?_, ?_, ?_⟩
  · intro u attr' hu heq
    subst hu
    unfold chown at heq
    cases hr : chownResolve c attr (some u) gid with
    | error e => rw [hr] at heq; simp at heq
    | ok p =>
      obtain ⟨nu, ng, cp⟩ := p
      obtain ⟨cp1, cp2, hu', _, _⟩ :=
        chownResolve_ok c attr (some u) gid nu ng cp hr
      obtain ⟨k, hck, _⟩ := chownUIDStep_some_ok c attr u nu cp1 hu'
      obtain ⟨hm, hpol, _⟩ := chownCheckUID_ok c attr u k cp1 hck
      exact ⟨k, hm, hpol⟩
  · intro u hu hg _ hmap howner hso
    subst hu hg
    exact chown_noop_self w c attr u hmap howner hso
  · intro attr' heq hdir hbits hch
    unfold chown at heq
    cases hr : chownResolve c attr uid gid with
    | error e => rw [hr] at heq; simp at heq
    | ok p =>
      obtain ⟨nu, ng, cp⟩ := p
      rw [hr] at heq
      obtain ⟨cp1, cp2, hu', hg', hcp⟩ :=
        chownResolve_ok c attr uid gid nu ng cp hr
      have hcpt : cp = true := by
        rcases hch with ⟨u, k, hu, hk, hne⟩ | ⟨g, k, hg, hk, hne⟩
        · subst hu
          obtain ⟨k', hck, _⟩ := chownUIDStep_some_ok c attr u nu cp1 hu'
          obtain ⟨hm, _, hcp1⟩ := chownCheckUID_ok c attr u k' cp1 hck
          rw [hk] at hm
          have hkk : k = k' := Option.some.inj hm
          subst hkk
          have hb : (attr.ownerUID != k) = true := by
            simp [bne_iff_ne]
            exact fun hcontra => hne hcontra.symm
          rw [hcp, hcp1, hb]
          simp
        · subst hg
          obtain ⟨k', hck, _⟩ := chownGIDStep_some_ok c attr g ng cp2 hg'
          obtain ⟨hm, hcp2⟩ := chownCheckGID_ok c attr g k' cp2 hck
          rw [hk] at hm
          have hkk : k = k' := Option.some.inj hm
          subst hkk
          have hb : (attr.ownerGID != k) = true := by
            simp [bne_iff_ne]
            exact fun hcontra => hne hcontra.symm
          rw [hcp, hcp2, hb]
          simp
      rw [hcpt] at heq
      exact chownApply_true_clears w attr nu ng attr' heq hdir hbits

/-- Backend world where both chown mutations succeed. -/
def chownWorldOK : ChownWorld := ⟨.ok (), true⟩

/-- A caller without CAP_CHOWN whose uid is 1000, in an identity-mapped
user namespace. -/
def chownSelf : ChownCreds where
  effUID := 1000
  hasChownCap := false
  mapToKUID := fun n => some n
  mapToKGID := fun n => some n
  inGroup := fun _ => false

/-- A non-directory owned by uid/gid 1000 with both privilege bits set. -/
def chownAttr : OwnedAttr where
  ownerUID := 1000
  ownerGID := 1000
  perms := ⟨true, true⟩
  isDir := false

/-- The same caller, holding CAP_CHOWN. -/
def chownCapCreds : ChownCreds := { chownSelf with hasChownCap := true }

theorem chown_ownership_policy_witness :
    chown chownWorldOK chownSelf chownAttr (some 1000) none
      = .ok chownAttr ∧
    (∃ k, chownSelf.mapToKUID 1000 = some k ∧
      (chownSelf.hasChownCap = true ∨
        (chownAttr.ownerUID = chownSelf.effUID ∧
          chownAttr.ownerUID = k))) ∧
    (⟨0, 1000, ⟨false, false⟩, false⟩ : OwnedAttr).perms
      = ⟨false, false⟩ := by
  have hb := (chown_ownership_policy chownWorldOK chownSelf chownAttr
    (some 1000) none).2.1 1000 rfl rfl rfl rfl rfl rfl
  refine ⟨hb, ?_, ?_⟩
  · exact (chown_ownership_policy chownWorldOK chownSelf chownAttr
      (some 1000) none).1 1000 chownAttr rfl hb
  · exact (chown_ownership_policy chownWorldOK chownCapCreds chownAttr
      (some 0) none).2.2 ⟨0, 1000, ⟨false, false⟩, false⟩ rfl rfl rfl
      (Or.inl ⟨0, 0, rfl, rfl, by decide⟩)

/-! ## The create-or-open engine `createAt`

The filesystem naming graph is modelled as named edges between node ids
plus per-node kinds; the external mount-namespace lookup of a single
component (`FindLink` on the final name) is modelled from the spec as
lookup-by-name in the graph, and `FindInode` on the link-target's parent
path is kept abstract in the world. -/

/-- The naming graph: edges `(parent, name) ↦ child`, node kinds, and the
next fresh node id handed out by creation. -/
structure FS where
  edges : List ((Nat × String) × Nat)
  nodes : List (Nat × NodeKind)
  nextId : Nat
  deriving Repr

/-- Modelled from the spec: the mount namespace's lookup-by-name for a
single path component (`FindLink` on the final name; the final symlink is
not followed). -/
def FS.lookupEdge (fs : FS) (p : Nat) (n : String) : Option Nat :=
  (fs.edges.find? (fun e => e.1 == (p, n))).map (·.2)

/-- The stable-attribute kind of a node (unknown nodes get `.other`). -/
def FS.kindOf (fs : FS) (n : Nat) : NodeKind :=
  ((fs.nodes.find? (fun e => e.1 == n)).map (·.2)).getD .other

/-- Creation of a regular node under `(p, name)` (`parent.Create`). -/
def FS.create (fs : FS) (p : Nat) (name : String) : FS × Nat :=
  (⟨((p, name), fs.nextId) :: fs.edges,
    (fs.nextId, .regular) :: fs.nodes,
    fs.nextId + 1⟩, fs.nextId)

/-- `readlinkAt` over the graph: resolve the final component without
following it and read its link text (`Inode.Readlink`). -/
def FS.readlinkAt (fs : FS) (p : Nat) (n : String) : Except Errno String :=
  match fs.lookupEdge p n with
  | none => .error .ENOENT
  | some d =>
    match fs.kindOf d with
    | .symlink t => .ok t
    | _ => .error .EINVAL

/-- Result of `Inode.Getlink`: a direct dirent, the sentinel
`fs.ErrResolveViaReadlink`, or another error. -/
inductive GetlinkRes
  | resolved (d : Nat)
  | viaReadlink
  | err (e : Errno)
  deriving Repr

/-- The environment of one `createAt` call: the graph and the behaviour of
the external collaborators it consults.  `findInode` is the mount
namespace's full resolution of the link-target's parent path, anchored at
the current parent (`FindInode(root, parent, newParentPath)`); it is kept
abstract. -/
structure CreateWorld where
  fs : FS
  getlink : Nat → GetlinkRes
  /-- `fs.SplitLast` applied to a link target (external). -/
  splitLast : String → String × String
  findInode : Nat → String → Except Errno Nat
  checkPerm : Nat → Except Errno Unit
  checkPermParent : Nat → Except Errno Unit
  truncateRes : Nat → Except Errno Unit
  getFileRes : Nat → Except Errno Unit
  createRes : Except Errno Unit
  newFDRes : Except Errno Nat

/-- Outcome of the manual symlink-resolution loop of `createAt`. -/
inductive LoopRes
  | err (e : Errno)
  | found (n : Nat)
  | notFound (parent : Nat) (name : String)
  deriving Repr

/-- The loop's result, the remaining traversal budget, and the number of
textual symlink hops (Readlink resolutions) it performed. -/
structure LoopOut where
  res : LoopRes
  budget : Nat
  hops : Nat
  deriving Repr

/-- Shallow embedding of the resolution loop of `createAt`: check the
current parent is a directory, look up the final name (absent means
"proceed to creation"), fail `EEXIST` under `O_EXCL`, stop on a
non-symlink, fail `ELOOP` under `O_NOFOLLOW`, try `Getlink` (success
breaks the loop keeping the link dirent as `found`), fail `ELOOP` on an
exhausted budget, otherwise read the link text, split it, re-resolve the
new parent, decrement the budget and repeat with the new parent/name. -/
def createLoop (w : CreateWorld) (excl nofollow : Bool) :
    Nat → String → Nat → LoopOut
  | parent, name, budget =>
    if (w.fs.kindOf parent).isDir = false then ⟨.err .ENOTDIR, budget, 0⟩
    else
      match w.fs.lookupEdge parent name with
      | none => ⟨.notFound parent name, budget, 0⟩
      | some found =>
        if excl then ⟨.err .EEXIST, budget, 0⟩
        else
          match w.fs.kindOf found with
          | .symlink target =>
            if nofollow then ⟨.err .ELOOP, budget, 0⟩
            else
              match w.getlink found with
              | .resolved _ => ⟨.found found, budget, 0⟩
              | .err e => ⟨.err e, budget, 0⟩
              | .viaReadlink =>
                match budget with
                | 0 => ⟨.err .ELOOP, 0, 0⟩
                | b + 1 =>
                  -- Readlink yields the link text; remainingTraversals--.
                  let pr := w.splitLast target
                  match w.findInode parent pr.1 with
                  | .error e => ⟨.err e, b, 1⟩
                  | .ok newParent =>
                    let out := createLoop w excl nofollow newParent pr.2 b
                    ⟨out.res, out.budget, out.hops + 1⟩
          | _ => ⟨.found found, budget, 0⟩

/-- The observable outcome of `createAt`: the installed descriptor or the
error, the resulting graph, the nodes truncated (`O_TRUNC`), and the
creation performed, if any, as `(parent, name, new node)`. -/
structure CreateOut where
  result : Except Errno Nat
  fs : FS
  truncatedNodes : List Nat
  created : Option (Nat × String × Nat)
  deriving Repr

/-- Shallow embedding of the closure body of `createAt` (after
`fileOpAt`): run the resolution loop; on a found node check permission,
truncate under `O_TRUNC`, get the file and install a descriptor; on
"not found" check write+execute on the parent, create the node there and
install a descriptor; propagate loop errors.  The flag tests
(`flags&O_EXCL`, `flags&O_NOFOLLOW`, `flags&O_TRUNC`) are passed as the
three booleans. -/
def createAtBody (w : CreateWorld) (excl nofollow trunc : Bool)
    (parent : Nat) (name : String) (budget : Nat) : CreateOut :=
  let out := createLoop w excl nofollow parent name budget
  match out.res with
  | .err e => ⟨.error e, w.fs, [], none⟩
  | .found n =>
    match w.checkPerm n with
    | .error e => ⟨.error e, w.fs, [], none⟩
    | .ok _ =>
      if trunc then
        match w.truncateRes n with
        | .error e => ⟨.error e, w.fs, [n], none⟩
        | .ok _ => createInstall w n [n] none
      else createInstall w n [] none
  | .notFound p nm =>
    match w.checkPermParent p with
    | .error e => ⟨.error e, w.fs, [], none⟩
    | .ok _ =>
      match w.createRes with
      | .error e => ⟨.error e, w.fs, [], none⟩
      | .ok _ =>
        let (fs1, newId) := w.fs.create p nm
        match w.newFDRes with
        | .error e => ⟨.error e, fs1, [], some (p, nm, newId)⟩
        | .ok fd => ⟨.ok fd, fs1, [], some (p, nm, newId)⟩
where
  /-- Tail for the found case: `GetFile` then `NewFDFrom`. -/
  createInstall (w : CreateWorld) (n : Nat) (tr : List Nat)
      (cr : Option (Nat × String × Nat)) : CreateOut :=
    match w.getFileRes n with
    | .error e => ⟨.error e, w.fs, tr, cr⟩
    | .ok _ =>
      match w.newFDRes with
      | .error e => ⟨.error e, w.fs, tr, cr⟩
      | .ok fd => ⟨.ok fd, w.fs, tr, cr⟩

/-- C4: an `O_CREAT|O_EXCL` open whose final component is found to exist —
whatever the found entry's kind, including a (possibly dangling) symlink —
fails `EEXIST` and performs no mutation: the graph is returned unchanged,
nothing is truncated and nothing is created. -/
theorem createAt_excl_eexist (w : CreateWorld) (nofollow trunc : Bool)
    (parent : Nat) (name : String) (n : Nat) (budget : Nat)
    (hpd : w.fs.kindOf parent = .dir)
    (hl : w.fs.lookupEdge parent name = some n) :
    createAtBody w true nofollow trunc parent name budget
      = ⟨.error .EEXIST, w.fs, [], none⟩ := by
  have hloop : createLoop w true nofollow parent name budget
      = ⟨.err .EEXIST, budget, 0⟩ := by
    unfold createLoop
    simp [hpd, hl, NodeKind.isDir]
  simp [createAtBody, hloop]

/-- An existing dangling symlink under the root directory of a two-node
graph. -/
def exclFS : FS where
  edges := [((0, "a"), 1)]
  nodes := [(0, .dir), (1, .symlink "b")]
  nextId := 2

/-- A create-or-open environment over `exclFS` whose collaborators all
succeed. -/
def exclWorld : CreateWorld where
  fs := exclFS
  getlink := fun _ => .viaReadlink
  splitLast := fun t => (".", t)
  findInode := fun p path => if path = "." then .ok p else .error .ENOENT
  checkPerm := fun _ => .ok ()
  checkPermParent := fun _ => .ok ()
  truncateRes := fun _ => .ok ()
  getFileRes := fun _ => .ok ()
  createRes := .ok ()
  newFDRes := .ok 3

theorem createAt_excl_eexist_witness :
    exclWorld.fs.kindOf 0 = .dir ∧
    exclWorld.fs.lookupEdge 0 "a" = some 1 ∧
    exclWorld.fs.kindOf 1 = .symlink "b" ∧
    exclWorld.fs.lookupEdge 1 "b" = none ∧
    createAtBody exclWorld true false true 0 "a" 40
      = ⟨.error .EEXIST, exclWorld.fs, [], none⟩ :=
  ⟨rfl, rfl, rfl, rfl,
    createAt_excl_eexist exclWorld false true 0 "a" 1 40 rfl rfl⟩

theorem createLoop_budget_eq (w : CreateWorld) (excl nofollow : Bool)
    (budget : Nat) :
    ∀ parent name,
      (createLoop w excl nofollow parent name budget).budget
        + (createLoop w excl nofollow parent name budget).hops = budget := by
  induction budget with
  | zero =>
    intro parent name
    unfold createLoop
    cases hd : (w.fs.kindOf parent).isDir
    · simp [hd]
    · cases hl : w.fs.lookupEdge parent name with
      | none => simp [hd, hl]
      | some found =>
        cases he : excl
        · cases hk : w.fs.kindOf found with
          | dir => simp [hd, hl, he, hk]
          | regular => simp [hd, hl, he, hk]
          | fifo => simp [hd, hl, he, hk]
          | other => simp [hd, hl, he, hk]
          | symlink t =>
            cases hn : nofollow
            · cases hg : w.getlink found with
              | resolved d => simp [hd, hl, he, hk, hn, hg]
              | err e => simp [hd, hl, he, hk, hn, hg]
              | viaReadlink => simp [hd, hl, he, hk, hn, hg]
            · simp [hd, hl, he, hk, hn]
        · simp [hd, hl, he]
  | succ b IH =>
    intro parent name
    unfold createLoop
    cases hd : (w.fs.kindOf parent).isDir
    · simp [hd]
    · cases hl : w.fs.lookupEdge parent name with
      | none => simp [hd, hl]
      | some found =>
        cases he : excl
        · cases hk : w.fs.kindOf found with
          | dir => simp [hd, hl, he, hk]
          | regular => simp [hd, hl, he, hk]
          | fifo => simp [hd, hl, he, hk]
          | other => simp [hd, hl, he, hk]
          | symlink t =>
            cases hn : nofollow
            · cases hg : w.getlink found with
              | resolved d => simp [hd, hl, he, hk, hn, hg]
              | err e => simp [hd, hl, he, hk, hn, hg]
              | viaReadlink =>
                cases hf : w.findInode parent (w.splitLast t).1 with
                | error e => simp [hd, hl, he, hk, hn, hg, hf]
                | ok newParent =>
                  have hIH := IH newParent (w.splitLast t).2
                  rw [he, hn] at hIH
                  simp [hd, hl, he, hk, hn, hg, hf]
                  omega
            · simp [hd, hl, he, hk, hn]
        · simp [hd, hl, he]

/-- C5: the resolution loop of `createAt` is budget-disciplined: every
textual symlink hop (resolution via `Readlink`) consumes exactly one unit
of the traversal budget (`budget_out + hops = budget_in`), so the number
of hops in one call is bounded by the initial budget; and when the next
step would need a textual resolution with the budget already exhausted,
the loop attempts no further resolution and the call fails `ELOOP`
(too many levels of symbolic links) without touching the graph. -/
theorem createLoop_symlink_budget (w : CreateWorld) (excl nofollow : Bool)
    (parent : Nat) (name : String) (budget : Nat) :
    ((createLoop w excl nofollow parent name budget).budget
        + (createLoop w excl nofollow parent name budget).hops = budget ∧
      (createLoop w excl nofollow parent name budget).hops ≤ budget) ∧
    (∀ n t, w.fs.kindOf parent = .dir →
      w.fs.lookupEdge parent name = some n →
      excl = false → w.fs.kindOf n = .symlink t → nofollow = false →
      w.getlink n = .viaReadlink → budget = 0 →
      createLoop w excl nofollow parent name budget
        = ⟨.err .ELOOP, 0, 0⟩ ∧
      ∀ trunc, createAtBody w excl nofollow trunc parent name budget
        = ⟨.error .ELOOP, w.fs, [], none⟩) := by
  constructor
  · have h := createLoop_budget_eq w excl nofollow budget parent name
    exact ⟨h, by omega⟩
  · intro n t hpd hl he hk hn hg hb
    subst he hn hb
    have hloop : createLoop w false false parent name 0
        = ⟨.err .ELOOP, 0, 0⟩ := by
      unfold createLoop
      simp [hpd, hl, hk, hg, NodeKind.isDir]
    exact ⟨hloop, fun trunc => by simp [createAtBody, hloop]⟩

theorem createLoop_symlink_budget_witness :
    ((createLoop exclWorld false false 0 "a" 40).budget
        + (createLoop exclWorld false false 0 "a" 40).hops = 40 ∧
      (createLoop exclWorld false false 0 "a" 40).hops ≤ 40) ∧
    (createLoop exclWorld false false 0 "a" 0 = ⟨.err .ELOOP, 0, 0⟩ ∧
      createAtBody exclWorld false false false 0 "a" 0
        = ⟨.error .ELOOP, exclWorld.fs, [], none⟩) :=
  ⟨(createLoop_symlink_budget exclWorld false false 0 "a" 40).1,
    ((createLoop_symlink_budget exclWorld false false 0 "a" 0).2 1 "b"
      rfl rfl rfl rfl rfl rfl rfl).1,
    ((createLoop_symlink_budget exclWorld false false 0 "a" 0).2 1 "b"
      rfl rfl rfl rfl rfl rfl rfl).2 false⟩

/-- C3: an `O_CREAT` open (no `O_EXCL`, no `O_NOFOLLOW`) whose final
component is a symlink resolving via `Readlink` to a target that does not
exist creates the node at the symlink's *target* location: the new node is
installed under the target's parent and name, the original path still maps
to the unchanged link node, and `readlink` on the original path still
returns the original link text. -/
theorem createAt_dangling_symlink (w : CreateWorld) (trunc : Bool)
    (parent : Nat) (name : String) (budget : Nat)
    (linkNode tParent : Nat) (target tpp tName : String) (fd : Nat)
    (hpd : w.fs.kindOf parent = .dir)
    (hl : w.fs.lookupEdge parent name = some linkNode)
    (hkl : w.fs.kindOf linkNode = .symlink target)
    (hgl : w.getlink linkNode = .viaReadlink)
    (hsplit : w.splitLast target = (tpp, tName))
    (hfi : w.findInode parent tpp = .ok tParent)
    (hpd2 : w.fs.kindOf tParent = .dir)
    (hl2 : w.fs.lookupEdge tParent tName = none)
    (hfresh : linkNode ≠ w.fs.nextId)
    (hperm : w.checkPermParent tParent = .ok ())
    (hcr : w.createRes = .ok ())
    (hfd : w.newFDRes = .ok fd)
    (hb : budget ≠ 0) :
    createAtBody w false false trunc parent name budget
      = ⟨.ok fd, (w.fs.create tParent tName).1, [],
          some (tParent, tName, w.fs.nextId)⟩ ∧
    (w.fs.create tParent tName).1.lookupEdge tParent tName
      = some w.fs.nextId ∧
    (w.fs.create tParent tName).1.kindOf w.fs.nextId = .regular ∧
    (w.fs.create tParent tName).1.lookupEdge parent name = some linkNode ∧
    (w.fs.create tParent tName).1.kindOf linkNode = .symlink target ∧
    (w.fs.create tParent tName).1.readlinkAt parent name = .ok target := by
  obtain ⟨b, rfl⟩ : ∃ b, budget = b + 1 := ⟨budget - 1, by omega⟩
  have hinner : createLoop w false false tParent tName b
      = ⟨.notFound tParent tName, b, 0⟩ := by
    unfold createLoop
    simp [hpd2, hl2, NodeKind.isDir]
  have hloop : createLoop w false false parent name (b + 1)
      = ⟨.notFound tParent tName, b, 1⟩ := by
    unfold createLoop
    simp [hpd, hl, hkl, hgl, hsplit, hfi, hinner, NodeKind.isDir]
  have hne : (tParent, tName) ≠ (parent, name) := by
    intro hcontra
    rw [Prod.mk.injEq] at hcontra
    rw [hcontra.1, hcontra.2] at hl2
    rw [hl2] at hl
    exact Option.noConfusion hl
  have hout : createAtBody w false false trunc parent name (b + 1)
      = ⟨.ok fd, (w.fs.create tParent tName).1, [],
          some (tParent, tName, w.fs.nextId)⟩ := by
    simp [createAtBody, hloop, hperm, hcr, hfd, FS.create]
  have h3 : (w.fs.create tParent tName).1.lookupEdge tParent tName
      = some w.fs.nextId := by
    show ((((tParent, tName), w.fs.nextId) :: w.fs.edges).find?
        (fun e => e.1 == (tParent, tName))).map (·.2) = some w.fs.nextId
    rw [List.find?_cons_of_pos _ (by simp)]
    rfl
  have h4 : (w.fs.create tParent tName).1.kindOf w.fs.nextId
      = .regular := by
    show ((((w.fs.nextId, NodeKind.regular) :: w.fs.nodes).find?
        (fun e => e.1 == w.fs.nextId)).map (·.2)).getD .other
      = NodeKind.regular
    rw [List.find?_cons_of_pos _ (by simp)]
    rfl
  have h5 : (w.fs.create tParent tName).1.lookupEdge parent name
      = some linkNode := by
    show ((((tParent, tName), w.fs.nextId) :: w.fs.edges).find?
        (fun e => e.1 == (parent, name))).map (·.2) = some linkNode
    rw [List.find?_cons_of_neg _ (by simpa using hne)]
    exact hl
  have h6 : (w.fs.create tParent tName).1.kindOf linkNode
      = .symlink target := by
    show ((((w.fs.nextId, NodeKind.regular) :: w.fs.nodes).find?
        (fun e => e.1 == linkNode)).map (·.2)).getD .other
      = NodeKind.symlink target
    rw [List.find?_cons_of_neg _ (by simpa using Ne.symm hfresh)]
    exact hkl
  have h7 : (w.fs.create tParent tName).1.readlinkAt parent name
      = .ok target := by
    simp [FS.readlinkAt, h5, h6]
  exact ⟨hout, h3, h4, h5, h6, h7⟩

theorem createAt_dangling_symlink_witness :
    createAtBody exclWorld false false false 0 "a" 40
      = ⟨.ok 3, (exclWorld.fs.create 0 "b").1, [], some (0, "b", 2)⟩ ∧
    (exclWorld.fs.create 0 "b").1.lookupEdge 0 "b" = some 2 ∧
    (exclWorld.fs.create 0 "b").1.kindOf 2 = .regular ∧
    (exclWorld.fs.create 0 "b").1.lookupEdge 0 "a" = some 1 ∧
    (exclWorld.fs.create 0 "b").1.kindOf 1 = .symlink "b" ∧
    (exclWorld.fs.create 0 "b").1.readlinkAt 0 "a" = .ok "b" :=
  createAt_dangling_symlink exclWorld false 0 "a" 40 1 0 "b" "." "b" 3
    rfl rfl rfl rfl rfl rfl rfl rfl (by decide) rfl rfl rfl (by decide)

/-! ## `Truncate` (truncate(2)) -/

/-- `linux.SIGXFSZ`. -/
def SIGXFSZ : Nat := 25

/-- The environment of one `Truncate` call: the path decode
(`copyInPath`, yielding the trailing-slash flag), the thread group's
file-size limit, the resolution outcome and the per-node collaborators of
the closure. -/
structure TruncWorld where
  decode : Except Errno Bool
  limit : Nat
  resolveRes : Except Errno Nat
  kind : Nat → NodeKind
  checkPerm : Nat → Except Errno Unit
  truncateRes : Nat → Except Errno Unit

/-- The observable outcome of `Truncate`: the returned error, the signals
delivered to the task, whether path resolution (`fileOpOn`) was invoked,
and the truncations performed as `(node, length)`. -/
structure TruncOut where
  result : Except Errno Unit
  signals : List Nat
  resolved : Bool
  truncateCalls : List (Nat × Int)
  deriving Repr

/-- Shallow embedding of `Truncate`: reject a negative length
(`EINVAL`), decode the path, reject a trailing slash (`EINVAL`), then —
before any path resolution — compare the (now non-negative) length
against the file-size limit: at or above it, deliver `SIGXFSZ` and fail
`EFBIG`.  Only below the limit does resolution run, followed by the type
checks (`EISDIR` for directories, `EINVAL` for non-regular files), the
write-permission check, and the actual truncation. -/
def Truncate (w : TruncWorld) (length : Int) : TruncOut :=
  if length < 0 then ⟨.error .EINVAL, [], false, []⟩
  else
    match w.decode with
    | .error e => ⟨.error e, [], false, []⟩
    | .ok dirPath =>
      if dirPath then ⟨.error .EINVAL, [], false, []⟩
      else if w.limit ≤ length.toNat then
        -- t.SendSignal(SIGXFSZ); return EFBIG.
        ⟨.error .EFBIG, [SIGXFSZ], false, []⟩
      else
        match w.resolveRes with
        | .error e => ⟨.error e, [], true, []⟩
        | .ok d =>
          if (w.kind d).isDir then ⟨.error .EISDIR, [], true, []⟩
          else if (w.kind d).isRegular = false then
            ⟨.error .EINVAL, [], true, []⟩
          else
            match w.checkPerm d with
            | .error e => ⟨.error e, [], true, []⟩
            | .ok _ =>
              match w.truncateRes d with
              | .error e => ⟨.error e, [], true, [(d, length)]⟩
              | .ok _ => ⟨.ok (), [], true, [(d, length)]⟩

/-- C8: a `truncate` call with a well-formed non-directory path and a
non-negative requested length at or above the thread group's file-size
limit delivers exactly one `SIGXFSZ` signal and fails `EFBIG`, without
resolving the path and without performing any truncation. -/
theorem truncate_over_limit (w : TruncWorld) (length : Int)
    (h0 : 0 ≤ length) (hd : w.decode = .ok false)
    (hl : w.limit ≤ length.toNat) :
    Truncate w length = ⟨.error .EFBIG, [SIGXFSZ], false, []⟩ := by
  simp [Truncate, hd, hl, not_lt.mpr h0]

/-- A truncate environment with limit 100 over a regular file. -/
def truncWorld : TruncWorld where
  decode := .ok false
  limit := 100
  resolveRes := .ok 7
  kind := fun _ => .regular
  checkPerm := fun _ => .ok ()
  truncateRes := fun _ => .ok ()

theorem truncate_over_limit_witness :
    (0 : Int) ≤ 100 ∧ truncWorld.decode = .ok false ∧
    truncWorld.limit ≤ (100 : Int).toNat ∧
    Truncate truncWorld 100 = ⟨.error .EFBIG, [SIGXFSZ], false, []⟩ :=
  ⟨by decide, rfl, by decide,
    truncate_over_limit truncWorld 100 (by decide) rfl (by decide)⟩

/-! ## `Fallocate` (fallocate(2)) -/

/-- Two's-complement wrap of a mathematical integer into a signed 64-bit
value: the result of Go's `int64` addition on in-range operands. -/
def wrap64 (n : Int) : Int := (n + 2 ^ 63) % 2 ^ 64 - 2 ^ 63

/-- The open file consulted by `Fallocate`: its write flag and the kind of
its dirent's inode. -/
structure FalloFile where
  flagsWrite : Bool
  kind : NodeKind
  deriving Repr

/-- The environment of one `Fallocate` call. -/
structure FalloWorld where
  file : Option FalloFile
  limit : Nat
  allocateRes : Except Errno Unit

/-- The observable outcome of `Fallocate`. -/
structure FalloOut where
  result : Except Errno Unit
  signals : List Nat
  allocateCalled : Bool
  deriving Repr

/-- Shallow embedding of `Fallocate`: `EBADF` for a closed descriptor,
`EINVAL` for a negative offset or non-positive length, `ENOTSUP` for a
non-zero mode, `EBADF` for a non-writable file, `ESPIPE`/`EISDIR`/`ENODEV`
type checks, then `size := offset + length` in wrapping 64-bit arithmetic:
a negative size fails `EFBIG` with no signal; a non-negative size at or
above the file-size limit delivers `SIGXFSZ` and fails `EFBIG`; otherwise
the backend `Allocate` runs. -/
def Fallocate (w : FalloWorld) (mode offset length : Int) : FalloOut :=
  match w.file with
  | none => ⟨.error .EBADF, [], false⟩
  | some f =>
    if offset < 0 ∨ length ≤ 0 then ⟨.error .EINVAL, [], false⟩
    else if mode ≠ 0 then ⟨.error .ENOTSUP, [], false⟩
    else if f.flagsWrite = false then ⟨.error .EBADF, [], false⟩
    else if f.kind.isPipe then ⟨.error .ESPIPE, [], false⟩
    else if f.kind.isDir then ⟨.error .EISDIR, [], false⟩
    else if f.kind.isRegular = false then ⟨.error .ENODEV, [], false⟩
    else
      let size := wrap64 (offset + length)
      if size < 0 then ⟨.error .EFBIG, [], false⟩
      else if w.limit ≤ size.toNat then ⟨.error .EFBIG, [SIGXFSZ], false⟩
      else
        match w.allocateRes with
        | .error e => ⟨.error e, [], true⟩
        | .ok _ => ⟨.ok (), [], true⟩

/-- C10: for a writable open regular file with mode 0, an `offset ≥ 0` and
`length > 0` whose 64-bit sum overflows (the wrapped size is negative),
`Fallocate` fails `EFBIG` without invoking the backend `Allocate` and
without delivering any signal — unlike the in-range over-limit case, which
fails `EFBIG` *with* a `SIGXFSZ` signal. -/
theorem fallocate_overflow_efbig (w : FalloWorld) (f : FalloFile)
    (offset length : Int)
    (hf : w.file = some f) (hw : f.flagsWrite = true)
    (hk : f.kind = .regular)
    (ho : 0 ≤ offset) (hlen : 0 < length)
    (hob : offset < 2 ^ 63) (hlb : length < 2 ^ 63) :
    (2 ^ 63 ≤ offset + length →
      Fallocate w 0 offset length = ⟨.error .EFBIG, [], false⟩) ∧
    (offset + length < 2 ^ 63 → w.limit ≤ (offset + length).toNat →
      Fallocate w 0 offset length
        = ⟨.error .EFBIG, [SIGXFSZ], false⟩) := by
  have hargs : ¬(offset < 0 ∨ length ≤ 0) := by omega
  constructor
  · intro hsum
    have hwrap : wrap64 (offset + length) < 0 := by
      unfold wrap64
      have h1 : (offset + length + 2 ^ 63) % 2 ^ 64
          = offset + length - 2 ^ 63 := by
        omega
      omega
    simp [Fallocate, hf, hw, hk, hargs, NodeKind.isPipe, NodeKind.isDir,
      NodeKind.isRegular, hwrap]
  · intro hsum hlim
    have hwrap : wrap64 (offset + length) = offset + length := by
      unfold wrap64
      have h1 : (offset + length + 2 ^ 63) % 2 ^ 64
          = offset + length + 2 ^ 63 := by
        omega
      omega
    have hnneg : ¬ wrap64 (offset + length) < 0 := by omega
    simp only [Fallocate, hf, hw, hk, NodeKind.isPipe, NodeKind.isDir,
      NodeKind.isRegular, hwrap]
    rw [if_neg hargs, if_neg (by simp), if_neg (by simp), if_neg (by simp),
      if_neg (by simp), if_neg (by simp)]
    rw [if_neg (by omega), if_pos (by simpa using hlim)]

/-- A fallocate environment over a writable regular file with limit 10. -/
def falloWorld : FalloWorld where
  file := some ⟨true, .regular⟩
  limit := 10
  allocateRes := .ok ()

theorem fallocate_overflow_efbig_witness :
    Fallocate falloWorld 0 (2 ^ 62) (2 ^ 62 + 1)
      = ⟨.error .EFBIG, [], false⟩ ∧
    Fallocate falloWorld 0 3 20 = ⟨.error .EFBIG, [SIGXFSZ], false⟩ :=
  ⟨(fallocate_overflow_efbig falloWorld ⟨true, .regular⟩ (2 ^ 62)
      (2 ^ 62 + 1) rfl rfl rfl (by norm_num) (by norm_num) (by norm_num)
      (by norm_num)).1 (by norm_num),
    (fallocate_overflow_efbig falloWorld ⟨true, .regular⟩ 3 20 rfl rfl rfl
      (by norm_num) (by norm_num) (by norm_num) (by norm_num)).2
      (by norm_num) (by decide)⟩

end GVisor
